import Mathlib

/-!
Verification of the modbus-tester core against its specification.

The Rust source is shallowly embedded: machine integers become `Nat`
(with explicit `% 256` where the source casts to `u8`), `f64` display
values become `ℚ` (the expression collaborator is opaque, and every value
the claims touch is an exact small integer), fallible code returns
`Option`/`Except`, and the worker thread of `port_op.rs` becomes explicit
step functions on an engine-state type driven by environment oracles.
-/

namespace ModbusTester

/-! ### CRC-16/MODBUS

`crc::Crc::<u16>::new(&crc::CRC_16_MODBUS)` computes the standard
CRC-16/MODBUS: polynomial 0x8005 reflected (0xA001), initial value
0xFFFF, no final xor.  One bit step, eight bit steps per byte, and the
byte fold are embedded separately so linearity lemmas can be stated. -/

/-- One reflected-polynomial bit step: shift right, conditionally xor 0xA001. -/
def crcShiftStep (c : Nat) : Nat :=
  if c &&& 1 = 1 then (c >>> 1) ^^^ 0xA001 else c >>> 1

/-- Eight bit steps: one processed byte. -/
def step8 (c : Nat) : Nat := crcShiftStep^[8] c

/-- Absorb one byte into the running CRC state. -/
def crcByteStep (c b : Nat) : Nat := step8 (c ^^^ b)

/-- CRC-16/MODBUS of a byte sequence. -/
def crc16 (bytes : List Nat) : Nat := bytes.foldl crcByteStep 0xFFFF

/-! ### Data model (`message_sender.rs`, `port_op.rs`, `ops.rs`, `error.rs`) -/

/-- `port_op.rs` `StopBits`. -/
inductive StopBits where
  | One
  | Two
deriving DecidableEq, Repr

/-- `port_op.rs` `Parity`. -/
inductive Parity where
  | NoneP
  | Odd
  | Even
deriving DecidableEq, Repr

/-- `port_op.rs` `PortConfig`: validated port parameters.  Structural
equality (`PartialEq` in the source) decides port-reuse compatibility. -/
structure PortConfig where
  port_name : String
  baud : Nat
  stop_bits : StopBits
  parity : Parity
  device_addr : Nat
deriving DecidableEq, Repr

/-- `message_sender.rs` `Request`.  `WriteSingle addr original val`:
`original` is the pre-transform display value (an `f64` in the source,
embedded as `ℚ`), `val` the post-transform wire value. -/
inductive Request where
  | ReadSingle (addr : Nat)
  | WriteSingle (addr : Nat) (original : ℚ) (val : Nat)
  | ReadSingleRO (addr : Nat)
deriving DecidableEq, Repr

/-- `message_sender.rs` `Operation`: name, request, transform source text
(the compiled closure is recovered from `eval_str` on demand). -/
structure Operation where
  name : String
  req : Request
  eval_str : String
deriving DecidableEq, Repr

instance : Inhabited Operation := ⟨⟨"", .ReadSingle 0, "val"⟩⟩

/-- `error.rs` `ErrKind`. -/
inductive ErrKind where
  | MathOperationParseError
  | RequestParseError
  | InvalidPortOption
  | MathOperationResultInOutOfRangeValue
  | FailedToOpenTargetPort
  | PortWriteFailed
  | PortOpThreadNotPresent
  | PortOpDroppedChannelTxWithoutResponse
  | PortTypeUnequal
  | AttemptToStartMultipleContinuousQuarry
deriving DecidableEq, Repr

/-- `error.rs` `Error`: a kind plus free-text detail. -/
structure Error where
  kind : ErrKind
  message : String
deriving DecidableEq, Repr

/-! ### Frame encoding (`Operation::to_modbus_bytes`) -/

/-- `message_sender.rs` lines 115-146.  The source fills an 8-byte array:
byte 0 the device address, byte 1 the function code (0x03 read holding,
0x06 write single, 0x04 read input), bytes 2-5 the big-endian address and
value (`as u8` casts embedded as `% 256`), bytes 6-7 the CRC of the first
six bytes, low byte first. -/
def Operation.to_modbus_bytes (op : Operation) (port_conf : PortConfig) : List Nat :=
  let fcAddrVal : Nat × Nat × Nat :=
    match op.req with
    | .ReadSingle addr => (0x03, addr, 1)
    | .WriteSingle addr _original val => (0x06, addr, val)
    | .ReadSingleRO addr => (0x04, addr, 1)
  let fc := fcAddrVal.1
  let addr := fcAddrVal.2.1
  let val := fcAddrVal.2.2
  let first6 : List Nat :=
    [port_conf.device_addr, fc, (addr >>> 8) % 256, addr % 256,
      (val >>> 8) % 256, val % 256]
  let crc := crc16 first6
  first6 ++ [crc % 256, (crc >>> 8) % 256]

/-! ### Response decoding (`impl Display for Response`, `port_op.rs` 174-263)

The display derivation is pure presentation; what matters is which value
string is selected.  `DisplayVal.readValue v` stands for the rendering of
the transform applied to the extracted register value `v`;
`DisplayVal.writeOriginal q` for the rendering of the stored pre-transform
value `q`. -/

/-- `port_op.rs` `Response`: the operation plus the raw bytes read. -/
structure Response where
  op : Operation
  bytes : List Nat
deriving DecidableEq, Repr

/-- Outcome of the display derivation. -/
inductive DisplayVal where
  | invalidResponse
  | crcCheckFailed
  | unexpectedResponse
  | readValue (v : Nat)
  | writeOriginal (q : ℚ)
deriving DecidableEq, Repr

/-- The trailing little-endian CRC field:
`bytes[len-2] as u16 | (bytes[len-1] as u16) << 8`. -/
def msgCrc (bytes : List Nat) : Nat :=
  bytes.getD (bytes.length - 2) 0 ||| ((bytes.getD (bytes.length - 1) 0) <<< 8)

/-- The decoder's CRC comparison: checksum over all bytes before the CRC
field against the trailing little-endian field. -/
def crcOk (bytes : List Nat) : Bool :=
  crc16 (bytes.take (bytes.length - 2)) == msgCrc bytes

/-- `let make_u16 = |msb, lsb| ((msb as u16) << 8) | lsb as u16`. -/
def make_u16 (msb lsb : Nat) : Nat := (msb <<< 8) ||| lsb

/-- `port_op.rs` lines 214-259: the decision cascade of
`impl Display for Response`. -/
def responseValue (resp : Response) : DisplayVal :=
  if resp.bytes.length < 5 then
    .invalidResponse
  else if ¬ crcOk resp.bytes then
    .crcCheckFailed
  else
    match resp.op.req with
    | .ReadSingle _ | .ReadSingleRO _ =>
      if resp.bytes.length ≠ 7 then .unexpectedResponse
      else .readValue (make_u16 (resp.bytes.getD 3 0) (resp.bytes.getD 4 0))
    | .WriteSingle _ original _ =>
      if resp.bytes.length ≠ 8 then .unexpectedResponse
      else .writeOriginal original

/-! ### Numeric literal parsing (`string_to_num.rs`)

`parse_num` detects a case-insensitive `0x`/`0b`/`0o` prefix selecting
radix 16/2/8 (base 10 otherwise) and delegates the remainder to
`T::from_str_radix`.  For the unsigned integer instantiations that is
Rust core's `from_str_radix`, embedded here over `List Char` with the
type's maximum value passed explicitly: an optional leading `+` sign,
then at least one digit, overflow rejected. -/

/-- Rust `char::to_digit(radix)`: `0-9`, then letters case-insensitively,
valid only below the radix. -/
def toDigit (radix : Nat) (c : Char) : Option Nat :=
  let d? : Option Nat :=
    if '0' ≤ c ∧ c ≤ '9' then some (c.toNat - '0'.toNat)
    else if 'a' ≤ c ∧ c ≤ 'z' then some (c.toNat - 'a'.toNat + 10)
    else if 'A' ≤ c ∧ c ≤ 'Z' then some (c.toNat - 'A'.toNat + 10)
    else none
  match d? with
  | some d => if d < radix then some d else none
  | none => none

/-- Digit accumulation loop of core `from_str_radix`: invalid digit or
exceeding the type maximum fails. -/
def digitsToNat (radix max : Nat) : Nat → List Char → Option Nat
  | acc, [] => some acc
  | acc, c :: cs =>
    match toDigit radix c with
    | none => none
    | some d =>
      let v := acc * radix + d
      if v ≤ max then digitsToNat radix max v cs else none

/-- Rust core `from_str_radix` for an unsigned type with maximum `max`:
empty input fails, one leading `+` is stripped (a bare sign fails), the
rest must be digits. -/
def from_str_radix (radix max : Nat) (l : List Char) : Option Nat :=
  match l with
  | [] => none
  | c :: rest =>
    if c = '+' then
      if rest.isEmpty then none else digitsToNat radix max 0 rest
    else digitsToNat radix max 0 (c :: rest)

/-- `string_to_num.rs` lines 30-45: radix prefix detection, then
`from_str_radix` on the remainder. -/
def parse_num (max : Nat) (cs : List Char) : Option Nat :=
  if cs.take 2 = ['0', 'x'] ∨ cs.take 2 = ['0', 'X'] then
    from_str_radix 16 max (cs.drop 2)
  else if cs.take 2 = ['0', 'b'] ∨ cs.take 2 = ['0', 'B'] then
    from_str_radix 2 max (cs.drop 2)
  else if cs.take 2 = ['0', 'o'] ∨ cs.take 2 = ['0', 'O'] then
    from_str_radix 8 max (cs.drop 2)
  else
    from_str_radix 10 max cs

/-- `parse_num` on a `String`, as `impl ParseNum for str`. -/
def parseNumStr (max : Nat) (s : String) : Option Nat := parse_num max s.data

/-! ### Float parsing and operation construction (`TryFrom<OpView>`)

The value text of a write is parsed with the same radix-prefix grammar as
a 64-bit float and fed to the compiled transform.  Both the float
`from_str_radix` and the expression compiler live in external crates
(`num`, `meval`); the spec treats the compiler as an opaque
"compile text into a one-argument numeric function" service. -/

/-- Fractional-digit loop of the float grammar: each digit adds
`d * scale`, the scale shrinking by the radix. -/
def fracDigitsQ (radix : Nat) : ℚ → ℚ → List Char → Option ℚ
  | _scale, acc, [] => some acc
  | scale, acc, c :: cs =>
    match toDigit radix c with
    | some d => fracDigitsQ radix (scale / radix) (acc + d * scale) cs
    | none => none

/-- Integer-digit loop of the float grammar; a `.` switches to the
fractional loop. -/
def intDigitsQ (radix : Nat) : ℚ → List Char → Option ℚ
  | acc, [] => some acc
  | acc, c :: cs =>
    match toDigit radix c with
    | some d => intDigitsQ radix (acc * radix + d) cs
    | none => if c = '.' then fracDigitsQ radix (1 / radix) acc cs else none

/-- Modelled from the spec: the `num` crate's float `from_str_radix`
("parse the value with the same grammar as a 64-bit float"), embedded
over `ℚ`: optional `-` sign, integer digits, optional fractional digits
(exponents and special values are not used by any claim). -/
def float_from_str_radix (radix : Nat) (l : List Char) : Option ℚ :=
  match l with
  | [] => none
  | c :: rest =>
    if c = '-' then
      if rest.isEmpty then none else (intDigitsQ radix 0 rest).map Neg.neg
    else intDigitsQ radix 0 (c :: rest)

/-- `parse_num::<f64>`: same radix-prefix detection, float remainder. -/
def parse_num_f (cs : List Char) : Option ℚ :=
  if cs.take 2 = ['0', 'x'] ∨ cs.take 2 = ['0', 'X'] then
    float_from_str_radix 16 (cs.drop 2)
  else if cs.take 2 = ['0', 'b'] ∨ cs.take 2 = ['0', 'B'] then
    float_from_str_radix 2 (cs.drop 2)
  else if cs.take 2 = ['0', 'o'] ∨ cs.take 2 = ['0', 'O'] then
    float_from_str_radix 8 (cs.drop 2)
  else
    float_from_str_radix 10 cs

/-- `parse_num::<f64>` on a `String`. -/
def parseNumFloat (s : String) : Option ℚ := parse_num_f s.data

/-- Rust `f64::round`: nearest integer, halves away from zero. -/
def rustRound (q : ℚ) : Int :=
  if 0 ≤ q then ⌊q + 1/2⌋ else ⌈q - 1/2⌉

/-- `ops.rs` `OpType`. -/
inductive OpType where
  | ReadSingle
  | WriteSingle
  | ReadSingleRO
deriving DecidableEq, Repr

/-- `ops.rs` `OpView`: the raw user-entered operation fields. -/
structure OpView where
  name : String
  op_type : OpType
  op_addr : String
  op_val : String
  eval_str : String
deriving DecidableEq, Repr

/-- Modelled from the spec: the `meval` expression compiler collaborator
("compile text into a one-argument numeric function", failing on bad
syntax or wrong free-variable count).  Only the identity expression
`"val"` is given a concrete meaning; the construction function is
parametric in the compiler. -/
def specCompile : String → Option (ℚ → ℚ) :=
  fun s => if s = "val" then some (fun x => x) else none

/-- `message_sender.rs` lines 38-105, `impl TryFrom<OpView> for Operation`,
parametric in the expression compiler: compile the transform, parse the
address as `u16`, and for writes parse the value as a float, apply the
transform, round, and range-check into `[0, 0xFFFF]`. -/
def operationTryFrom (compile : String → Option (ℚ → ℚ)) (view : OpView) :
    Except Error Operation :=
  match compile view.eval_str with
  | none => .error ⟨.MathOperationParseError,
      "Could not parse \"" ++ view.eval_str ++ "\" into valid math expression"⟩
  | some eval_func =>
    match parseNumStr 65535 view.op_addr with
    | none => .error ⟨.RequestParseError,
        "\"" ++ view.op_addr ++ "\" is no a valid register address"⟩
    | some op_addr =>
      match view.op_type with
      | .ReadSingle => .ok ⟨view.name, .ReadSingle op_addr, view.eval_str⟩
      | .WriteSingle =>
        match parseNumFloat view.op_val with
        | none => .error ⟨.RequestParseError,
            "\"" ++ view.op_val ++ "\" is no a valid register value"⟩
        | some val =>
          let eval_val := rustRound (eval_func val)
          if eval_val < 0 ∨ eval_val > 65535 then
            .error ⟨.MathOperationResultInOutOfRangeValue,
              view.op_val ++ " cannot be evaluated to a value in the range [0, 0xFFFF]"⟩
          else
            .ok ⟨view.name, .WriteSingle op_addr val eval_val.toNat, view.eval_str⟩
      | .ReadSingleRO => .ok ⟨view.name, .ReadSingleRO op_addr, view.eval_str⟩

/-! ### Timeout reader (`read_to_timeout.rs`)

`read_to_pattern_or_timeout` loops: read one byte into a scratch buffer
initialised to `[0]`, push `byte[0]`, compare the buffer tail with the
pattern, and stop on a timeout error.  The byte source is embedded as a
list of read events; running out of events means the loop is still
running (`pending`), which is how non-termination is observed. -/

/-- One result of `self.read(&mut byte)` on the embedded byte source. -/
inductive ReadEvent where
  | readByte (b : Nat)
  | eofByte
  | timeout
  | fatal
deriving DecidableEq, Repr

/-- Outcome of the reader loop.  The two `Ok(bytes_read)` return sites of
the source are kept apart (`okMatch` for the pattern break, `okTimeout`
for the timeout break); `pending` marks an exhausted event list with the
loop still running. -/
inductive ReadOutcome where
  | okMatch (buf : List Nat) (bytesRead : Nat)
  | okTimeout (buf : List Nat) (bytesRead : Nat)
  | readErr (buf : List Nat)
  | pending (buf : List Nat)
deriving DecidableEq, Repr

/-- The pattern comparison of `read_to_pattern_or_timeout`:
`buf.len() >= pattern.len() && &buf[buf.len()-pattern.len()..] == pattern`. -/
def tailMatches (pattern buf : List Nat) : Bool :=
  decide (pattern.length ≤ buf.length) &&
    (buf.drop (buf.length - pattern.length) == pattern)

/-- The matched window: the buffer suffix compared against the pattern. -/
def matchWindow (buf pattern : List Nat) : List Nat :=
  buf.drop (buf.length - pattern.length)

/-- `read_to_timeout.rs` lines 50-70, the loop body.  `Ok(_)` pushes
`byte[0]` — on a zero-byte read (`eofByte`) the scratch array still holds
`0`, so `0` is pushed — then compares the tail; `TimedOut` returns
`Ok(buf.len() - old_len)`; any other error is returned as-is. -/
def rtpLoop (pattern : List Nat) (old_len : Nat) :
    List Nat → List ReadEvent → ReadOutcome
  | buf, [] => .pending buf
  | buf, .readByte b :: evs =>
    let buf' := buf ++ [b]
    if tailMatches pattern buf' then .okMatch buf' (buf'.length - old_len)
    else rtpLoop pattern old_len buf' evs
  | buf, .eofByte :: evs =>
    let buf' := buf ++ [0]
    if tailMatches pattern buf' then .okMatch buf' (buf'.length - old_len)
    else rtpLoop pattern old_len buf' evs
  | buf, .timeout :: _ => .okTimeout buf (buf.length - old_len)
  | buf, .fatal :: _ => .readErr buf

/-- `read_to_pattern_or_timeout(buf, pattern)` against an event source:
the entry point records `old_len = buf.len()`. -/
def read_to_pattern_or_timeout (buf pattern : List Nat)
    (evs : List ReadEvent) : ReadOutcome :=
  rtpLoop pattern buf.length buf evs

/-! ### Port operation engine (`port_op_thread`, `port_op.rs` 346-463)

The single worker thread is embedded as two step functions: `idleStep`
consumes one blocking `recv` while idle, `pollStep` one iteration of the
inner polling loop.  The environment (serial port, channels) is an
oracle: whether the port opens, whether the write succeeds, what bytes
the read yields, whether the result send finds a live receiver.  Step
outputs record the observable effects: port-open attempts, frames
written, and messages passed to channel sends (error detail strings are
elided; only the `ErrKind` is modelled). -/

/-- `OpMessage`; reply channels are identifiers. -/
inductive CtrlMsg where
  | OneShot (conf : PortConfig) (op : Operation) (tx : Nat)
  | StartContinuous (conf : PortConfig) (ops : List Operation) (tx : Nat)
  | StopContinuous
deriving DecidableEq, Repr

/-- A value passed to a reply/results channel send. -/
inductive SendPayload where
  | okResp (resp : Response)
  | errKind (e : ErrKind)
deriving DecidableEq, Repr

/-- Engine-local session state of the polling loop: active config, the
round-robin operation list with its cursor (the position of `iter`), the
session's results channel, and the continuous flag. -/
structure Session where
  port_conf : PortConfig
  op_queue : List Operation
  cursor : Nat
  tx : Nat
  continuous : Bool
deriving DecidableEq, Repr

/-- The engine's control state. -/
inductive EngineState where
  | idle
  | polling (s : Session)
deriving DecidableEq, Repr

/-- Environment oracle for one round-trip: does `write_all` succeed, what
does `read_to_timeout` yield, does the result send find its receiver. -/
structure IoEnv where
  writeOk : Bool
  readBytes : List Nat
  sendOk : Bool
deriving DecidableEq, Repr

/-- Observable effects of one step. -/
structure StepOut where
  opens : List PortConfig
  writes : List (List Nat)
  sends : List (Nat × SendPayload)
deriving DecidableEq, Repr

/-- No observable effect. -/
def noOut : StepOut := ⟨[], [], []⟩

/-- `iter.next()` with wrap-around (`port_op.rs` 426-434): past the end,
the iterator is rebuilt and the first element taken. -/
def nextOp (s : Session) : Operation × Nat :=
  if s.cursor < s.op_queue.length then
    (s.op_queue.getD s.cursor default, s.cursor + 1)
  else
    (s.op_queue.getD 0 default, 1)

/-- `port_op.rs` 438-461: write the frame, read, send the response.
A failed write sends `PortWriteFailed` on the active channel and ends the
session; a failed send ends it silently; a plain one-shot (neither
continuous nor an interjection) ends after its single round-trip. -/
def execRoundTrip (s : Session) (req : Operation) (tx : Nat)
    (extra_oneshot : Bool) (io : IoEnv) : EngineState × StepOut :=
  let frame := req.to_modbus_bytes s.port_conf
  if ¬ io.writeOk then
    (.idle, { noOut with sends := [(tx, .errKind .PortWriteFailed)] })
  else
    let out : StepOut :=
      { noOut with writes := [frame],
                   sends := [(tx, .okResp ⟨req, io.readBytes⟩)] }
    if ¬ io.sendOk then (.idle, out)
    else if ¬ s.continuous ∧ ¬ extra_oneshot then (.idle, out)
    else (.polling s, out)

/-- `port_op.rs` 392-461: one iteration of the polling loop.  A pending
`OneShot` with a different config is refused with `PortTypeUnequal`; with
the same config it is interjected on its own channel without moving the
cursor.  A pending `StartContinuous` is refused.  `StopContinuous` ends
the session.  With nothing pending the cursor advances and the next
queued operation runs. -/
def pollStep (s : Session) (msg : Option CtrlMsg) (io : IoEnv) :
    EngineState × StepOut :=
  match msg with
  | some (.OneShot new_conf op tx') =>
    if new_conf ≠ s.port_conf then
      (.polling s, { noOut with sends := [(tx', .errKind .PortTypeUnequal)] })
    else
      execRoundTrip s op tx' true io
  | some (.StartContinuous _ _ tx') =>
    (.polling s,
      { noOut with sends := [(tx', .errKind .AttemptToStartMultipleContinuousQuarry)] })
  | some .StopContinuous => (.idle, noOut)
  | none =>
    let rc := nextOp s
    execRoundTrip { s with cursor := rc.2 } rc.1 s.tx false io

/-- `port_op.rs` 369-390: open the port.  Failure sends
`FailedToOpenTargetPort` on the triggering reply channel and returns to
idle; success enters polling with the cursor at the start. -/
def connectStep (conf : PortConfig) (queue : List Operation) (tx : Nat)
    (continuous openOk : Bool) : EngineState × StepOut :=
  if openOk then
    (.polling ⟨conf, queue, 0, tx, continuous⟩, { noOut with opens := [conf] })
  else
    (.idle,
      { noOut with
          opens := [conf]
          sends := [(tx, .errKind .FailedToOpenTargetPort)] })

/-- `port_op.rs` 350-390: one blocking `recv` while idle.  An empty
`StartContinuous` list is discarded without reply; `StopContinuous` is a
no-op. -/
def idleStep (msg : CtrlMsg) (openOk : Bool) : EngineState × StepOut :=
  match msg with
  | .OneShot conf op tx => connectStep conf [op] tx false openOk
  | .StartContinuous conf ops tx =>
    if ops.isEmpty then (.idle, noOut)
    else connectStep conf ops tx true openOk
  | .StopContinuous => (.idle, noOut)

/-- One environment event: a blocking receive (idle) or one polling
iteration (polling). -/
inductive EngineEvent where
  | recv (msg : CtrlMsg) (openOk : Bool)
  | poll (msg : Option CtrlMsg) (io : IoEnv)
deriving DecidableEq, Repr

/-- The engine's step relation as a total function; an event of the wrong
shape for the current state (impossible in a real trace) is a no-op. -/
def engineStep : EngineState → EngineEvent → EngineState × StepOut
  | .idle, .recv m o => idleStep m o
  | .polling s, .poll m io => pollStep s m io
  | st, _ => (st, noOut)

/-! ## Lemmas: CRC-16/MODBUS algebra -/

/-- The low bit distributes over xor. -/
theorem and_one_xor (a b : Nat) : (a ^^^ b) &&& 1 = (a &&& 1) ^^^ (b &&& 1) := by
  apply Nat.eq_of_testBit_eq
  intro i
  simp only [Nat.testBit_and, Nat.testBit_xor]
  cases a.testBit i <;> cases b.testBit i <;> cases (1:Nat).testBit i <;> rfl

/-- Right shift distributes over xor. -/
theorem shiftRight_xor (a b n : Nat) : (a ^^^ b) >>> n = a >>> n ^^^ b >>> n := by
  apply Nat.eq_of_testBit_eq
  intro i
  simp [Nat.testBit_shiftRight, Nat.testBit_xor]

/-- The bit step written as an unconditional xor. -/
theorem crcShiftStep_eq (c : Nat) :
    crcShiftStep c = (c >>> 1) ^^^ (if c &&& 1 = 1 then 0xA001 else 0) := by
  unfold crcShiftStep
  by_cases h : c &&& 1 = 1
  · rw [if_pos h, if_pos h]
  · rw [if_neg h, if_neg h, Nat.xor_zero]

/-- Pairwise regrouping of a four-way xor. -/
theorem xor_swap (x p y q : Nat) :
    (x ^^^ p) ^^^ (y ^^^ q) = (x ^^^ y) ^^^ (p ^^^ q) := by
  rw [Nat.xor_assoc, Nat.xor_assoc]
  congr 1
  rw [← Nat.xor_assoc, ← Nat.xor_assoc, Nat.xor_comm p y]

/-- The bit step is linear over GF(2). -/
theorem crcShiftStep_xor (a b : Nat) :
    crcShiftStep (a ^^^ b) = crcShiftStep a ^^^ crcShiftStep b := by
  rw [crcShiftStep_eq, crcShiftStep_eq, crcShiftStep_eq, shiftRight_xor,
    and_one_xor, xor_swap]
  congr 1
  have ha : a &&& 1 = 0 ∨ a &&& 1 = 1 := by rw [Nat.and_one_is_mod]; omega
  have hb : b &&& 1 = 0 ∨ b &&& 1 = 1 := by rw [Nat.and_one_is_mod]; omega
  rcases ha with ha | ha <;> rcases hb with hb | hb <;> rw [ha, hb] <;> decide

/-- Iterated bit steps are linear over GF(2). -/
theorem iterate_crcShiftStep_xor (n a b : Nat) :
    crcShiftStep^[n] (a ^^^ b) = crcShiftStep^[n] a ^^^ crcShiftStep^[n] b := by
  induction n generalizing a b with
  | zero => rfl
  | succ n ih =>
    rw [Function.iterate_succ_apply, Function.iterate_succ_apply,
      Function.iterate_succ_apply, crcShiftStep_xor, ih]

/-- The byte step is linear over GF(2). -/
theorem step8_xor (a b : Nat) : step8 (a ^^^ b) = step8 a ^^^ step8 b :=
  iterate_crcShiftStep_xor 8 a b

/-- Shifting the state by `d` before a fold shifts the result by `d` run
through one empty byte step per remaining byte. -/
theorem crcFold_xor (bytes : List Nat) :
    ∀ a d : Nat, bytes.foldl crcByteStep (a ^^^ d) =
      bytes.foldl crcByteStep a ^^^ step8^[bytes.length] d := by
  induction bytes with
  | nil => intro a d; rfl
  | cons x xs ih =>
    intro a d
    have hstep : crcByteStep (a ^^^ d) x = crcByteStep a x ^^^ step8 d := by
      unfold crcByteStep
      rw [show a ^^^ d ^^^ x = (a ^^^ x) ^^^ d by
        rw [Nat.xor_assoc, Nat.xor_assoc, Nat.xor_comm d x]]
      exact step8_xor (a ^^^ x) d
    simp only [List.foldl_cons, List.length_cons, hstep]
    rw [ih (crcByteStep a x) (step8 d), Function.iterate_succ_apply]

/-- Absorbing a xor-perturbed byte perturbs the state by the byte step of
the perturbation. -/
theorem crcByteStep_xor_byte (c x m : Nat) :
    crcByteStep c (x ^^^ m) = crcByteStep c x ^^^ step8 m := by
  unfold crcByteStep
  rw [show c ^^^ (x ^^^ m) = (c ^^^ x) ^^^ m from (Nat.xor_assoc _ _ _).symm]
  exact step8_xor (c ^^^ x) m

/-- Flipping bits `m` into the byte at index `j` perturbs the CRC by the
syndrome of `m` run through the remaining byte steps. -/
theorem crc16_set (P : List Nat) (j m : Nat) (h : j < P.length) :
    crc16 (P.set j (P.getD j 0 ^^^ m)) = crc16 P ^^^ step8^[P.length - j] m := by
  have hP : P.take j ++ P[j] :: P.drop (j + 1) = P := by
    conv_rhs => rw [← List.take_append_drop j P]
    congr 1
    exact List.getElem_cons_drop P j h
  have key : crc16 (P.take j ++ (P[j] ^^^ m) :: P.drop (j + 1))
      = crc16 (P.take j ++ P[j] :: P.drop (j + 1)) ^^^ step8^[P.length - j] m := by
    unfold crc16
    rw [List.foldl_append, List.foldl_append]
    simp only [List.foldl_cons]
    rw [crcByteStep_xor_byte, crcFold_xor]
    congr 1
    rw [← Function.iterate_succ_apply]
    congr 1
    rw [List.length_drop]
    omega
  rw [List.getD_eq_getElem P 0 h, List.set_eq_take_cons_drop _ h, key, hP]

/-- Xor of two 16-bit values is a 16-bit value. -/
theorem xor_lt_65536 (a b : Nat) (ha : a < 65536) (hb : b < 65536) :
    a ^^^ b < 65536 := by
  have e : (65536 : Nat) = 2 ^ 16 := by norm_num
  rw [e] at ha hb ⊢
  exact Nat.xor_lt_two_pow ha hb

/-- The bit step keeps the state below `2^16`. -/
theorem crcShiftStep_lt (c : Nat) (h : c < 65536) : crcShiftStep c < 65536 := by
  have h1 : c >>> 1 < 65536 := by
    rw [Nat.shiftRight_eq_div_pow]
    omega
  unfold crcShiftStep
  by_cases hb : c &&& 1 = 1
  · rw [if_pos hb]
    exact xor_lt_65536 _ _ h1 (by norm_num)
  · rw [if_neg hb]
    exact h1

/-- The byte step keeps the state below `2^16`. -/
theorem step8_lt (c : Nat) (h : c < 65536) : step8 c < 65536 := by
  unfold step8
  have : ∀ n x, x < 65536 → crcShiftStep^[n] x < 65536 := by
    intro n
    induction n with
    | zero => intro x hx; simpa using hx
    | succ n ih =>
      intro x hx
      rw [Function.iterate_succ_apply]
      exact ih _ (crcShiftStep_lt x hx)
  exact this 8 c h

/-- The CRC of a byte sequence fits in 16 bits. -/
theorem crc16_lt (bytes : List Nat) (h : ∀ b ∈ bytes, b < 256) :
    crc16 bytes < 65536 := by
  unfold crc16
  have : ∀ l : List Nat, (∀ b ∈ l, b < 256) → ∀ i : Nat, i < 65536 →
      l.foldl crcByteStep i < 65536 := by
    intro l
    induction l with
    | nil => intro _ i hi; simpa using hi
    | cons x xs ih =>
      intro hl i hi
      simp only [List.foldl_cons]
      apply ih (fun b hb => hl b (List.mem_cons_of_mem x hb))
      unfold crcByteStep
      apply step8_lt
      have hx : x < 65536 := by
        have := hl x (List.mem_cons_self x xs)
        omega
      exact xor_lt_65536 _ _ hi hx
  exact this bytes h 65535 (by norm_num)

/-- Reassembling the low and high CRC bytes little-endian recovers the CRC. -/
theorem lor_lo_hi (x : Nat) (h : x < 65536) :
    (x % 256) ||| (((x >>> 8) % 256) <<< 8) = x := by
  have h8 : (256 : Nat) = 2 ^ 8 := by norm_num
  apply Nat.eq_of_testBit_eq
  intro i
  simp only [Nat.testBit_lor, Nat.testBit_shiftLeft, Nat.testBit_shiftRight, h8,
    Nat.testBit_mod_two_pow]
  by_cases hi : i < 8
  · simp [hi, Nat.not_le.mpr hi]
  · by_cases hi2 : i < 16
    · have h8le : 8 ≤ i := Nat.not_lt.mp hi
      simp [hi, h8le]
      have hlt : i - 8 < 8 := by omega
      simp [hlt, Nat.add_sub_cancel' h8le]
    · have hx : x.testBit i = false := by
        apply Nat.testBit_lt_two_pow
        calc x < 65536 := h
        _ = 2 ^ 16 := by norm_num
        _ ≤ 2 ^ i := Nat.pow_le_pow_right (by norm_num) (by omega)
      simp [hx]
      intro h8le hlt
      rw [Nat.add_sub_cancel' h8le]
      exact hx

/-- If `s ≠ 0` then xoring `s` in changes the value. -/
theorem xor_ne_of_ne_zero (x s : Nat) (hs : s ≠ 0) : x ^^^ s ≠ x := by
  intro h
  apply hs
  have h2 := congrArg (fun y => x ^^^ y) h
  simp only [← Nat.xor_assoc, Nat.xor_self, Nat.zero_xor] at h2
  exact h2

/-- The decoder's CRC comparison on a six-byte prefix plus two trailing
bytes reduces to comparing the prefix CRC with the reassembled field. -/
theorem crcOk_append (Q : List Nat) (lo hi : Nat) (h : Q.length = 6) :
    crcOk (Q ++ [lo, hi]) = (crc16 Q == (lo ||| (hi <<< 8))) := by
  rcases Q with _ | ⟨a, _ | ⟨b, _ | ⟨c, _ | ⟨d, _ | ⟨e, _ | ⟨f, _ | ⟨g, Q⟩⟩⟩⟩⟩⟩⟩
  · exfalso; simp at h
  · exfalso; simp at h
  · exfalso; simp at h
  · exfalso; simp at h
  · exfalso; simp at h
  · exfalso; simp at h
  · simp only [crcOk, msgCrc, List.cons_append, List.nil_append, List.length_cons,
      List.length_nil]
    norm_num
  · exfalso; simp at h

set_option maxRecDepth 100000 in
/-- The 48 single-bit syndromes reachable from a flip inside a six-byte
frame are all nonzero. -/
theorem syndromes_nonzero :
    ∀ j, j < 6 → ∀ i, i < 8 → step8^[6 - j] (1 <<< i) ≠ 0 := by decide

/-- The high CRC byte of a 16-bit value is its quotient by 256. -/
theorem hi_byte (x : Nat) (h : x < 65536) : (x >>> 8) % 256 = x / 256 := by
  have e : x >>> 8 = x / 256 := by
    rw [Nat.shiftRight_eq_div_pow]
  rw [e]
  exact Nat.mod_eq_of_lt (by omega)

/-- Appending a frame's own CRC little-endian passes the decoder's check. -/
theorem crcOk_append_self (P : List Nat) (h6 : P.length = 6)
    (hb : ∀ b ∈ P, b < 256) :
    crcOk (P ++ [crc16 P % 256, (crc16 P >>> 8) % 256]) = true := by
  rw [crcOk_append _ _ _ h6, lor_lo_hi _ (crc16_lt P hb), beq_self_eq_true]

/-! ## Claim theorems -/

set_option maxRecDepth 100000 in
/-- C1: `to_modbus_bytes` always returns exactly 8 bytes laid out as
`[device_addr, function_code, addr_hi, addr_lo, val_hi, val_lo, crc_lo,
crc_hi]` — function code 0x03 for `ReadSingle`, 0x04 for `ReadSingleRO`,
0x06 for `WriteSingle`; the value field is 1 for both read kinds and the
transformed raw value for writes; bytes 6..8 are the CRC-16/MODBUS of the
first six bytes, little-endian.  In particular, encoding
`ReadSingle 0x0001` with `device_addr = 1` yields
`01 03 00 01 00 01 D5 CA`. -/
theorem C1_frame_layout (op : Operation) (conf : PortConfig)
    (hd : conf.device_addr < 256) :
    (op.to_modbus_bytes conf).length = 8
    ∧ (∀ a, op.req = .ReadSingle a → a < 65536 →
        op.to_modbus_bytes conf =
          [conf.device_addr, 0x03, a / 256, a % 256, 0, 1,
            crc16 [conf.device_addr, 0x03, a / 256, a % 256, 0, 1] % 256,
            crc16 [conf.device_addr, 0x03, a / 256, a % 256, 0, 1] / 256])
    ∧ (∀ a, op.req = .ReadSingleRO a → a < 65536 →
        op.to_modbus_bytes conf =
          [conf.device_addr, 0x04, a / 256, a % 256, 0, 1,
            crc16 [conf.device_addr, 0x04, a / 256, a % 256, 0, 1] % 256,
            crc16 [conf.device_addr, 0x04, a / 256, a % 256, 0, 1] / 256])
    ∧ (∀ a q v, op.req = .WriteSingle a q v → a < 65536 → v < 65536 →
        op.to_modbus_bytes conf =
          [conf.device_addr, 0x06, a / 256, a % 256, v / 256, v % 256,
            crc16 [conf.device_addr, 0x06, a / 256, a % 256, v / 256, v % 256] % 256,
            crc16 [conf.device_addr, 0x06, a / 256, a % 256, v / 256, v % 256] / 256])
    ∧ Operation.to_modbus_bytes ⟨"op", .ReadSingle 1, "val"⟩
        ⟨"COM1", 9600, .One, .NoneP, 1⟩ =
        [1, 3, 0, 1, 0, 1, crc16 [1, 3, 0, 1, 0, 1] % 256,
          crc16 [1, 3, 0, 1, 0, 1] >>> 8 % 256]
    ∧ Operation.to_modbus_bytes ⟨"op", .ReadSingle 1, "val"⟩
        ⟨"COM1", 9600, .One, .NoneP, 1⟩ = [1, 3, 0, 1, 0, 1, 0xD5, 0xCA] := by
  refine ⟨?_, ?_, ?_, ?_, by decide, by decide⟩
  · rcases op with ⟨n, req, e⟩
    rcases req with a | ⟨a, q, v⟩ | a <;> simp [Operation.to_modbus_bytes]
  · intro a hreq ha
    have hlt : crc16 [conf.device_addr, 0x03, a / 256, a % 256, 0, 1] < 65536 := by
      apply crc16_lt
      intro b hbm
      simp at hbm
      rcases hbm with rfl | rfl | rfl | rfl | rfl | rfl <;> omega
    simp only [Operation.to_modbus_bytes, hreq]
    rw [show ((1 : Nat) >>> 8) % 256 = 0 from rfl, show (1 : Nat) % 256 = 1 from rfl,
      hi_byte a ha, hi_byte _ hlt]
    rfl
  · intro a hreq ha
    have hlt : crc16 [conf.device_addr, 0x04, a / 256, a % 256, 0, 1] < 65536 := by
      apply crc16_lt
      intro b hbm
      simp at hbm
      rcases hbm with rfl | rfl | rfl | rfl | rfl | rfl <;> omega
    simp only [Operation.to_modbus_bytes, hreq]
    rw [show ((1 : Nat) >>> 8) % 256 = 0 from rfl, show (1 : Nat) % 256 = 1 from rfl,
      hi_byte a ha, hi_byte _ hlt]
    rfl
  · intro a q v hreq ha hv
    have hlt : crc16 [conf.device_addr, 0x06, a / 256, a % 256, v / 256, v % 256]
        < 65536 := by
      apply crc16_lt
      intro b hbm
      simp at hbm
      rcases hbm with rfl | rfl | rfl | rfl | rfl | rfl <;> omega
    simp only [Operation.to_modbus_bytes, hreq]
    rw [hi_byte a ha, hi_byte v hv, hi_byte _ hlt]
    rfl

set_option maxRecDepth 100000 in
/-- Witness for C1 at `ReadSingle 0x0001`, `device_addr = 1`. -/
theorem C1_frame_layout_witness :
    Operation.to_modbus_bytes ⟨"op", .ReadSingle 1, "val"⟩
      ⟨"COM1", 9600, .One, .NoneP, 1⟩ =
      [1, 3, 0, 1, 0, 1, crc16 [1, 3, 0, 1, 0, 1] % 256,
        crc16 [1, 3, 0, 1, 0, 1] / 256] :=
  (C1_frame_layout ⟨"op", .ReadSingle 1, "val"⟩ ⟨"COM1", 9600, .One, .NoneP, 1⟩
    (by norm_num)).2.1 1 rfl (by norm_num)

/-- C8: for every 6-byte prefix, appending its CRC-16/MODBUS little-endian
yields a frame that passes the decoder's CRC check; flipping any single
bit of the prefix without recomputing the CRC makes the check fail; and
every frame produced by `to_modbus_bytes` passes the check. -/
theorem C8_crc_check (P : List Nat) (h6 : P.length = 6) (hb : ∀ b ∈ P, b < 256) :
    crcOk (P ++ [crc16 P % 256, (crc16 P >>> 8) % 256]) = true
    ∧ (∀ j, j < 6 → ∀ i, i < 8 →
        crcOk ((P.set j (P.getD j 0 ^^^ (1 <<< i))) ++
          [crc16 P % 256, (crc16 P >>> 8) % 256]) = false)
    ∧ (∀ (op : Operation) (conf : PortConfig), conf.device_addr < 256 →
        crcOk (op.to_modbus_bytes conf) = true) := by
  refine ⟨crcOk_append_self P h6 hb, ?_, ?_⟩
  · intro j hj i hi
    have hj6 : j < P.length := by omega
    have hset : (P.set j (P.getD j 0 ^^^ (1 <<< i))).length = 6 := by
      rw [List.length_set]; exact h6
    rw [crcOk_append _ _ _ hset, lor_lo_hi _ (crc16_lt P hb)]
    apply beq_false_of_ne
    rw [crc16_set P j (1 <<< i) hj6, h6]
    exact xor_ne_of_ne_zero _ _ (syndromes_nonzero j hj i hi)
  · intro op conf hd
    rcases op with ⟨n, req, e⟩
    rcases req with a | ⟨a, q, v⟩ | a <;>
      · simp only [Operation.to_modbus_bytes]
        refine crcOk_append_self _ (by simp) ?_
        intro b hbm
        simp at hbm
        rcases hbm with rfl | rfl | rfl | rfl | rfl | rfl <;> omega

/-- Witness for C8 at the prefix `[1, 3, 0, 1, 0, 1]` and the flip of bit 0
of byte 0. -/
theorem C8_crc_check_witness :
    crcOk ([1, 3, 0, 1, 0, 1] ++
      [crc16 [1, 3, 0, 1, 0, 1] % 256, (crc16 [1, 3, 0, 1, 0, 1] >>> 8) % 256]) = true
    ∧ crcOk (([1, 3, 0, 1, 0, 1].set 0 (([1, 3, 0, 1, 0, 1].getD 0 0) ^^^ (1 <<< 0))) ++
      [crc16 [1, 3, 0, 1, 0, 1] % 256, (crc16 [1, 3, 0, 1, 0, 1] >>> 8) % 256]) = false := by
  have h := C8_crc_check [1, 3, 0, 1, 0, 1] rfl (by decide)
  exact ⟨h.1, h.2.1 0 (by norm_num) 0 (by norm_num)⟩

/-- C2: the display derivation follows the decision order: fewer than 5
bytes is an invalid response regardless of content; then a CRC mismatch
against the trailing little-endian field reports a CRC failure; then
reads require exactly 7 bytes and display the transform applied to the
big-endian value from bytes 3..5, writes require exactly 8 bytes and
display the stored pre-transform value rather than anything decoded from
the echoed frame. -/
theorem C2_response_decision (resp : Response) :
    (resp.bytes.length < 5 → responseValue resp = .invalidResponse)
    ∧ (5 ≤ resp.bytes.length → crcOk resp.bytes = false →
        responseValue resp = .crcCheckFailed)
    ∧ (∀ a, 5 ≤ resp.bytes.length → crcOk resp.bytes = true →
        (resp.op.req = .ReadSingle a ∨ resp.op.req = .ReadSingleRO a) →
        (resp.bytes.length ≠ 7 → responseValue resp = .unexpectedResponse)
        ∧ (resp.bytes.length = 7 → responseValue resp =
            .readValue (make_u16 (resp.bytes.getD 3 0) (resp.bytes.getD 4 0))))
    ∧ (∀ a q v, 5 ≤ resp.bytes.length → crcOk resp.bytes = true →
        resp.op.req = .WriteSingle a q v →
        (resp.bytes.length ≠ 8 → responseValue resp = .unexpectedResponse)
        ∧ (resp.bytes.length = 8 → responseValue resp = .writeOriginal q)) := by
  refine ⟨?_, ?_, ?_, ?_⟩
  · intro h
    simp [responseValue, h]
  · intro h5 hcrc
    simp [responseValue, hcrc, Nat.not_lt.mpr h5]
  · intro a h5 hcrc hreq
    constructor
    · intro h7
      rcases hreq with hreq | hreq <;> simp [responseValue, hcrc, Nat.not_lt.mpr h5, hreq, h7]
    · intro h7
      rcases hreq with hreq | hreq <;> simp [responseValue, hcrc, Nat.not_lt.mpr h5, hreq, h7]
  · intro a q v h5 hcrc hreq
    constructor
    · intro h8
      simp [responseValue, hcrc, Nat.not_lt.mpr h5, hreq, h8]
    · intro h8
      simp [responseValue, hcrc, Nat.not_lt.mpr h5, hreq, h8]

/-- Witness for C2 at a 3-byte response, a CRC-failing 5-byte response,
and a well-formed 7-byte read response. -/
theorem C2_response_decision_witness :
    responseValue ⟨⟨"r", .ReadSingle 1, "val"⟩, [1, 2, 3]⟩ = .invalidResponse
    ∧ responseValue ⟨⟨"r", .ReadSingle 1, "val"⟩, [1, 2, 3, 4, 5]⟩ = .crcCheckFailed
    ∧ responseValue ⟨⟨"r", .ReadSingle 1, "val"⟩,
        [1, 3, 2, 0, 100, crc16 [1, 3, 2, 0, 100] % 256, crc16 [1, 3, 2, 0, 100] / 256]⟩ =
        .readValue (make_u16 0 100) := by
  refine ⟨(C2_response_decision ⟨⟨"r", .ReadSingle 1, "val"⟩, [1, 2, 3]⟩).1 (by norm_num),
    (C2_response_decision ⟨⟨"r", .ReadSingle 1, "val"⟩, [1, 2, 3, 4, 5]⟩).2.1
      (by norm_num) (by decide), ?_⟩
  have h := ((C2_response_decision ⟨⟨"r", .ReadSingle 1, "val"⟩,
      [1, 3, 2, 0, 100, crc16 [1, 3, 2, 0, 100] % 256, crc16 [1, 3, 2, 0, 100] / 256]⟩).2.2.1
      1 (by norm_num) (by decide) (Or.inl rfl)).2 (by norm_num)
  simpa using h

/-- A character that is no digit in the radix poisons the digit loop. -/
theorem digitsToNat_none (radix max : Nat) (c : Char) (hc : toDigit radix c = none) :
    ∀ (acc : Nat) (l : List Char), c ∈ l → digitsToNat radix max acc l = none := by
  intro acc l
  induction l generalizing acc with
  | nil => intro h; cases h
  | cons x xs ih =>
    intro hmem
    rcases List.mem_cons.mp hmem with rfl | hmem
    · simp only [digitsToNat, hc]
    · simp only [digitsToNat]
      cases hx : toDigit radix x with
      | none => rfl
      | some d =>
        simp only []
        split
        · exact ih _ hmem
        · rfl

/-- `from_str_radix` fails on any input containing a non-digit other than
the strippable leading `+`. -/
theorem from_str_radix_none (radix max : Nat) (l : List Char) (c : Char)
    (hmem : c ∈ l) (hdig : toDigit radix c = none) (hplus : c ≠ '+') :
    from_str_radix radix max l = none := by
  cases l with
  | nil => cases hmem
  | cons x rest =>
    simp only [from_str_radix]
    by_cases hx : x = '+'
    · rw [if_pos hx]
      cases hr : rest.isEmpty with
      | true => simp [hr]
      | false =>
        simp only [hr, Bool.false_eq_true, if_false]
        apply digitsToNat_none radix max c hdig
        rcases List.mem_cons.mp hmem with rfl | hmem2
        · exact absurd hx hplus
        · exact hmem2
    · rw [if_neg hx]
      exact digitsToNat_none radix max c hdig 0 (x :: rest) hmem

/-- `parse_num` fails on any input containing a character that is no digit
in any radix and none of the prefix or sign characters. -/
theorem parse_num_none (max : Nat) (cs : List Char) (c : Char)
    (hc : c ∈ cs)
    (hdig : ∀ r, toDigit r c = none)
    (hnot : c ∉ (['+', '0', 'x', 'X', 'b', 'B', 'o', 'O'] : List Char)) :
    parse_num max cs = none := by
  simp only [List.mem_cons, List.not_mem_nil, or_false, not_or] at hnot
  obtain ⟨hp, h0, hx, hX, hb, hB, ho, hO⟩ := hnot
  have hdrop : ∀ (p : List Char), cs.take 2 = p → c ∉ p → c ∈ cs.drop 2 := by
    intro p hp2 hcp
    have h := List.take_append_drop 2 cs
    rw [hp2] at h
    rw [← h] at hc
    rcases List.mem_append.mp hc with h2 | h2
    · exact absurd h2 hcp
    · exact h2
  unfold parse_num
  by_cases h1 : cs.take 2 = ['0', 'x'] ∨ cs.take 2 = ['0', 'X']
  · rw [if_pos h1]
    rcases h1 with h1 | h1 <;>
      exact from_str_radix_none _ _ _ c
        (hdrop _ h1 (by simp [h0, hx, hX])) (hdig _) hp
  · rw [if_neg h1]
    by_cases h2 : cs.take 2 = ['0', 'b'] ∨ cs.take 2 = ['0', 'B']
    · rw [if_pos h2]
      rcases h2 with h2 | h2 <;>
        exact from_str_radix_none _ _ _ c
          (hdrop _ h2 (by simp [h0, hb, hB])) (hdig _) hp
    · rw [if_neg h2]
      by_cases h3 : cs.take 2 = ['0', 'o'] ∨ cs.take 2 = ['0', 'O']
      · rw [if_pos h3]
        rcases h3 with h3 | h3 <;>
          exact from_str_radix_none _ _ _ c
            (hdrop _ h3 (by simp [h0, ho, hO])) (hdig _) hp
      · rw [if_neg h3]
        exact from_str_radix_none _ _ _ c hc (hdig _) hp

/-- C7, amended: the multi-radix grammar accepts case-insensitive
`0x`/`0b`/`0o` prefixes (base 10 otherwise), so `"0x10"`, `"0o20"`,
`"0b10000"` and `"16"` all parse to 16; it rejects the empty string and a
bare prefix; it rejects any input containing a minus sign or whitespace;
but a single leading `+` (also after a radix prefix) is accepted by the
underlying `from_str_radix`, so `"+16"` parses to 16. -/
theorem C7_literal_grammar :
    (parseNumStr 65535 "0x10" = some 16 ∧ parseNumStr 65535 "0o20" = some 16
      ∧ parseNumStr 65535 "0b10000" = some 16 ∧ parseNumStr 65535 "16" = some 16)
    ∧ (parseNumStr 65535 "" = none ∧ parseNumStr 65535 "0x" = none
      ∧ parseNumStr 65535 "0b" = none ∧ parseNumStr 65535 "0o" = none)
    ∧ (∀ (max : Nat) (cs : List Char), '-' ∈ cs → parse_num max cs = none)
    ∧ (∀ (max : Nat) (cs : List Char) (c : Char), c ∈ cs → c.isWhitespace = true →
        parse_num max cs = none)
    ∧ parseNumStr 65535 "+16" = some 16 := by
  refine ⟨by decide, by decide, ?_, ?_, by decide⟩
  · intro max cs hmem
    exact parse_num_none max cs '-' hmem (fun r => rfl) (by decide)
  · intro max cs c hmem hws
    have h4 := hws
    simp only [Char.isWhitespace, Bool.or_eq_true, decide_eq_true_eq] at h4
    rcases h4 with ((rfl | rfl) | rfl) | rfl <;>
      exact parse_num_none max cs _ hmem (fun r => rfl) (by decide)

/-- Witness for C7 at `"-16"` and `" 16"`. -/
theorem C7_literal_grammar_witness :
    parse_num 65535 ("-16".data) = none ∧ parse_num 65535 (" 16".data) = none :=
  ⟨C7_literal_grammar.2.2.1 65535 "-16".data (by decide),
    C7_literal_grammar.2.2.2.1 65535 " 16".data ' ' (by decide) (by decide)⟩

/-- Counterexample to C7 as stated: the claim says any input containing a
sign is rejected, but `"+16"` contains the sign `+` and parses to 16,
because Rust core's `from_str_radix` strips one leading `+` for unsigned
types. -/
theorem C7_sign_counterexample : parseNumStr 65535 "+16" = some 16 := by decide

/-- Any pattern-match return of the reader loop satisfies the tail match,
strictly grew the buffer, and reports the growth since `old_len`. -/
theorem rtpLoop_okMatch (pattern : List Nat) (old : Nat) :
    ∀ (evs : List ReadEvent) (buf out : List Nat) (n : Nat),
      rtpLoop pattern old buf evs = .okMatch out n →
      tailMatches pattern out = true ∧ buf.length < out.length
        ∧ n = out.length - old := by
  intro evs
  induction evs with
  | nil =>
    intro buf out n h
    simp [rtpLoop] at h
  | cons e evs ih =>
    intro buf out n h
    cases e with
    | readByte b =>
      simp only [rtpLoop] at h
      by_cases hm : tailMatches pattern (buf ++ [b]) = true
      · rw [if_pos hm] at h
        cases h
        exact ⟨hm, by simp, rfl⟩
      · rw [if_neg hm] at h
        obtain ⟨h1, h2, h3⟩ := ih (buf ++ [b]) out n h
        refine ⟨h1, ?_, h3⟩
        simp only [List.length_append, List.length_cons, List.length_nil] at h2
        omega
    | eofByte =>
      simp only [rtpLoop] at h
      by_cases hm : tailMatches pattern (buf ++ [0]) = true
      · rw [if_pos hm] at h
        cases h
        exact ⟨hm, by simp, rfl⟩
      · rw [if_neg hm] at h
        obtain ⟨h1, h2, h3⟩ := ih (buf ++ [0]) out n h
        refine ⟨h1, ?_, h3⟩
        simp only [List.length_append, List.length_cons, List.length_nil] at h2
        omega
    | timeout => simp [rtpLoop] at h
    | fatal => simp [rtpLoop] at h

/-- C9, amended: a pattern-match return of `read_to_pattern_or_timeout`
always has the buffer tail equal to the pattern, always appended at least
one byte beyond the initial buffer (so at least one read precedes any
comparison), and for every nonempty pattern the match window contains the
most recently appended byte (its last element).  For the empty pattern
the function still reads one byte first, but the empty window contains no
byte at all. -/
theorem C9_match_requires_new_byte (pattern buf : List Nat)
    (evs : List ReadEvent) (out : List Nat) (n : Nat)
    (h : read_to_pattern_or_timeout buf pattern evs = .okMatch out n) :
    tailMatches pattern out = true
    ∧ buf.length < out.length
    ∧ n = out.length - buf.length
    ∧ 1 ≤ n
    ∧ (pattern ≠ [] → ∃ x, out.getLast? = some x ∧ x ∈ matchWindow out pattern) := by
  obtain ⟨h1, h2, h3⟩ := rtpLoop_okMatch pattern buf.length evs buf out n h
  refine ⟨h1, h2, h3, by omega, ?_⟩
  intro hpat
  unfold tailMatches at h1
  simp only [Bool.and_eq_true, decide_eq_true_eq, beq_iff_eq] at h1
  obtain ⟨hlen, hdrop⟩ := h1
  have hwin_ne : out.drop (out.length - pattern.length) ≠ [] := by
    rw [hdrop]; exact hpat
  have hlast : out.getLast? = (out.drop (out.length - pattern.length)).getLast? := by
    conv_lhs => rw [← List.take_append_drop (out.length - pattern.length) out]
    exact List.getLast?_append_of_ne_nil _ hwin_ne
  refine ⟨(out.drop (out.length - pattern.length)).getLast hwin_ne, ?_, ?_⟩
  · rw [hlast]
    exact List.getLast?_eq_getLast_of_ne_nil hwin_ne
  · unfold matchWindow
    exact List.getLast_mem hwin_ne

/-- Witness for C9 at initial buffer `[9]`, pattern `[3]`, one read of
byte 3. -/
theorem C9_match_requires_new_byte_witness :
    tailMatches [3] [9, 3] = true
    ∧ (1 : Nat) ≤ 1
    ∧ ∃ x, ([9, 3] : List Nat).getLast? = some x ∧ x ∈ matchWindow [9, 3] [3] := by
  have h := C9_match_requires_new_byte [3] [9] [.readByte 3] [9, 3] 1 (by decide)
  exact ⟨h.1, h.2.2.2.1, h.2.2.2.2 (by decide)⟩

/-- Counterexample to C9 as stated: with the empty pattern the very first
read returns a pattern match whose match window is empty, so the window
does not include the byte just read — and the pre-existing (empty) buffer
tail already equalled the pattern before anything was read. -/
theorem C9_empty_pattern_counterexample :
    read_to_pattern_or_timeout [] [] [.readByte 5] = .okMatch [5] 1
    ∧ tailMatches [] [] = true
    ∧ matchWindow [5] [] = []
    ∧ ¬ (5 ∈ matchWindow [5] ([] : List Nat)) := by decide

/-- C10: a successful zero-byte read (`Ok(0)`, end-of-stream) is handled
exactly like reading the byte `0x00`: the scratch byte is pushed and the
loop continues.  Hence on a source that only ever reports `Ok(0)`, after
`k` such reads the loop is still running with `k` spurious `0x00` bytes
appended, provided no zero-extended tail matched the pattern along the
way; it never terminates at end-of-stream. -/
theorem C10_eof_appends_zero (pattern : List Nat) (old : Nat)
    (buf : List Nat) (evs : List ReadEvent) (k : Nat) :
    rtpLoop pattern old buf (.eofByte :: evs) =
      rtpLoop pattern old buf (.readByte 0 :: evs)
    ∧ ((∀ j, j < k → tailMatches pattern (buf ++ List.replicate (j + 1) 0) = false) →
        rtpLoop pattern old buf (List.replicate k .eofByte) =
          .pending (buf ++ List.replicate k 0)) := by
  constructor
  · rfl
  · induction k generalizing buf with
    | zero =>
      intro _
      simp [rtpLoop]
    | succ k ih =>
      intro h
      rw [List.replicate_succ]
      simp only [rtpLoop]
      have h1 : tailMatches pattern (buf ++ [0]) = false := by
        have := h 0 (by omega)
        simpa using this
      rw [if_neg (by simp [h1])]
      have h2 := ih (buf ++ [0]) ?_
      · rw [h2, List.append_assoc]
        rfl
      · intro j hj
        have := h (j + 1) (by omega)
        rw [List.replicate_succ, List.append_cons] at this
        exact this

/-- Witness for C10 at pattern `[1]`, empty initial buffer, two
end-of-stream reads. -/
theorem C10_eof_appends_zero_witness :
    rtpLoop [1] 0 [] (List.replicate 2 .eofByte) = .pending [0, 0] := by
  have h := (C10_eof_appends_zero [1] 0 [] [] 2).2 (by decide)
  simpa using h

/-- C3: during polling, a pending `OneShot` whose config differs from the
session's is answered with `PortTypeUnequal` on its own reply channel and
nothing else happens — no open, no frame written, and the session (config,
operation list, round-robin cursor, results channel, continuous flag) is
exactly the state it was.  A pending `OneShot` with the same config is
executed immediately as one extra round-trip on its own reply channel,
and the session — in particular the round-robin cursor — is unchanged
afterwards. -/
theorem C3_oneshot_interjection (s : Session) (conf : PortConfig)
    (op : Operation) (tx : Nat) (io : IoEnv) :
    (conf ≠ s.port_conf →
      pollStep s (some (.OneShot conf op tx)) io =
        (.polling s, ⟨[], [], [(tx, .errKind .PortTypeUnequal)]⟩))
    ∧ (conf = s.port_conf → io.writeOk = true → io.sendOk = true →
      pollStep s (some (.OneShot conf op tx)) io =
        (.polling s, ⟨[], [op.to_modbus_bytes s.port_conf],
          [(tx, .okResp ⟨op, io.readBytes⟩)]⟩)) := by
  constructor
  · intro hne
    simp [pollStep, hne, noOut]
  · intro heq hw hs
    simp [pollStep, heq, execRoundTrip, hw, hs, noOut]

/-- Witness for C3: a concrete polling session with config A, refusing a
one-shot with config B and serving one with config A. -/
theorem C3_oneshot_interjection_witness :
    pollStep ⟨⟨"COM1", 9600, .One, .NoneP, 1⟩, [⟨"r", .ReadSingle 1, "val"⟩], 0, 7, true⟩
        (some (.OneShot ⟨"COM2", 9600, .One, .NoneP, 1⟩ ⟨"q", .ReadSingle 2, "val"⟩ 8))
        ⟨true, [], true⟩ =
      (.polling ⟨⟨"COM1", 9600, .One, .NoneP, 1⟩, [⟨"r", .ReadSingle 1, "val"⟩], 0, 7, true⟩,
        ⟨[], [], [(8, .errKind .PortTypeUnequal)]⟩)
    ∧ pollStep ⟨⟨"COM1", 9600, .One, .NoneP, 1⟩, [⟨"r", .ReadSingle 1, "val"⟩], 0, 7, true⟩
        (some (.OneShot ⟨"COM1", 9600, .One, .NoneP, 1⟩ ⟨"q", .ReadSingle 2, "val"⟩ 8))
        ⟨true, [5], true⟩ =
      (.polling ⟨⟨"COM1", 9600, .One, .NoneP, 1⟩, [⟨"r", .ReadSingle 1, "val"⟩], 0, 7, true⟩,
        ⟨[], [Operation.to_modbus_bytes ⟨"q", .ReadSingle 2, "val"⟩ ⟨"COM1", 9600, .One, .NoneP, 1⟩],
          [(8, .okResp ⟨⟨"q", .ReadSingle 2, "val"⟩, [5]⟩)]⟩) := by
  constructor
  · exact (C3_oneshot_interjection _ _ _ _ _).1 (by decide)
  · exact (C3_oneshot_interjection _ _ _ _ _).2 (by decide) rfl rfl

/-- C4: while idle, `StartContinuous` with an empty operation list is a
silent no-op — the engine stays idle, attempts no port open, writes no
frame, sends nothing on the supplied results channel and retains no
reference to it — and the engine then serves any following control
message as from a fresh idle state; in particular a following `OneShot`
that opens successfully enters polling on that one operation. -/
theorem C4_empty_continuous_noop (conf : PortConfig) (tx : Nat)
    (m2 : CtrlMsg) (o1 o2 : Bool) :
    engineStep .idle (.recv (.StartContinuous conf [] tx) o1) = (.idle, noOut)
    ∧ engineStep .idle (.recv m2 o2) = idleStep m2 o2
    ∧ (∀ (conf2 : PortConfig) (op2 : Operation) (tx2 : Nat),
        engineStep .idle (.recv (.OneShot conf2 op2 tx2) true) =
          (.polling ⟨conf2, [op2], 0, tx2, false⟩, ⟨[conf2], [], []⟩)) := by
  refine ⟨?_, rfl, ?_⟩
  · simp [engineStep, idleStep]
  · intro conf2 op2 tx2
    simp [engineStep, idleStep, connectStep, noOut]

/-- Witness for C4 at a concrete config: the empty start is a silent
no-op and a following one-shot is served. -/
theorem C4_empty_continuous_noop_witness :
    engineStep .idle (.recv (.StartContinuous ⟨"COM1", 9600, .One, .NoneP, 1⟩ [] 7) true) =
      (.idle, noOut)
    ∧ engineStep .idle
        (.recv (.OneShot ⟨"COM1", 9600, .One, .NoneP, 1⟩ ⟨"r", .ReadSingle 1, "val"⟩ 8) true) =
      (.polling ⟨⟨"COM1", 9600, .One, .NoneP, 1⟩, [⟨"r", .ReadSingle 1, "val"⟩], 0, 8, false⟩,
        ⟨[⟨"COM1", 9600, .One, .NoneP, 1⟩], [], []⟩) := by
  have h := C4_empty_continuous_noop ⟨"COM1", 9600, .One, .NoneP, 1⟩ 7 .StopContinuous true true
  exact ⟨h.1, h.2.2 _ _ 8⟩

/-- C5: every session-fatal condition returns the engine to idle, never
terminating it, and the error goes only to the triggering channel: an
open failure answers `FailedToOpenTargetPort` on the triggering reply
channel (one-shot or continuous) with no retry; a write failure answers
`PortWriteFailed` on the active channel — the session's or an interjected
one-shot's — and unconditionally ends the session with no reconnect; a
failed result send ends the session silently, with no error message at
all.  From idle the engine serves the next control message normally. -/
theorem C5_session_fatal_to_idle :
    (∀ (conf : PortConfig) (op : Operation) (tx : Nat),
      idleStep (.OneShot conf op tx) false =
        (.idle, ⟨[conf], [], [(tx, .errKind .FailedToOpenTargetPort)]⟩))
    ∧ (∀ (conf : PortConfig) (ops : List Operation) (tx : Nat), ops ≠ [] →
      idleStep (.StartContinuous conf ops tx) false =
        (.idle, ⟨[conf], [], [(tx, .errKind .FailedToOpenTargetPort)]⟩))
    ∧ (∀ (s : Session) (io : IoEnv), io.writeOk = false →
      pollStep s none io = (.idle, ⟨[], [], [(s.tx, .errKind .PortWriteFailed)]⟩))
    ∧ (∀ (s : Session) (op : Operation) (tx : Nat) (io : IoEnv),
        io.writeOk = false →
      pollStep s (some (.OneShot s.port_conf op tx)) io =
        (.idle, ⟨[], [], [(tx, .errKind .PortWriteFailed)]⟩))
    ∧ (∀ (s : Session) (io : IoEnv), io.writeOk = true → io.sendOk = false →
      pollStep s none io =
        (.idle, ⟨[], [(nextOp s).1.to_modbus_bytes s.port_conf],
          [(s.tx, .okResp ⟨(nextOp s).1, io.readBytes⟩)]⟩))
    ∧ (∀ (m : CtrlMsg) (o : Bool), engineStep .idle (.recv m o) = idleStep m o) := by
  refine ⟨?_, ?_, ?_, ?_, ?_, fun m o => rfl⟩
  · intro conf op tx
    simp [idleStep, connectStep, noOut]
  · intro conf ops tx hne
    simp [idleStep, connectStep, noOut, hne]
  · intro s io hw
    simp [pollStep, execRoundTrip, hw, noOut]
  · intro s op tx io hw
    simp [pollStep, execRoundTrip, hw, noOut]
  · intro s io hw hs
    simp [pollStep, execRoundTrip, hw, hs, noOut]

/-- Witness for C5 at a concrete session and environment: failing open,
failing write (both plain and interjected), and failing send. -/
theorem C5_session_fatal_to_idle_witness :
    idleStep (.OneShot ⟨"COM1", 9600, .One, .NoneP, 1⟩ ⟨"r", .ReadSingle 1, "val"⟩ 7) false =
      (.idle, ⟨[⟨"COM1", 9600, .One, .NoneP, 1⟩], [],
        [(7, .errKind .FailedToOpenTargetPort)]⟩)
    ∧ idleStep (.StartContinuous ⟨"COM1", 9600, .One, .NoneP, 1⟩
        [⟨"r", .ReadSingle 1, "val"⟩] 7) false =
      (.idle, ⟨[⟨"COM1", 9600, .One, .NoneP, 1⟩], [],
        [(7, .errKind .FailedToOpenTargetPort)]⟩)
    ∧ pollStep ⟨⟨"COM1", 9600, .One, .NoneP, 1⟩, [⟨"r", .ReadSingle 1, "val"⟩], 0, 7, true⟩
        none ⟨false, [], true⟩ =
      (.idle, ⟨[], [], [(7, .errKind .PortWriteFailed)]⟩)
    ∧ pollStep ⟨⟨"COM1", 9600, .One, .NoneP, 1⟩, [⟨"r", .ReadSingle 1, "val"⟩], 0, 7, true⟩
        none ⟨true, [9], false⟩ =
      (.idle, ⟨[], [Operation.to_modbus_bytes ⟨"r", .ReadSingle 1, "val"⟩
          ⟨"COM1", 9600, .One, .NoneP, 1⟩],
        [(7, .okResp ⟨⟨"r", .ReadSingle 1, "val"⟩, [9]⟩)]⟩) := by
  refine ⟨C5_session_fatal_to_idle.1 _ _ _,
    C5_session_fatal_to_idle.2.1 _ _ _ (by simp),
    C5_session_fatal_to_idle.2.2.1 _ _ rfl, ?_⟩
  have h := C5_session_fatal_to_idle.2.2.2.2.1
    ⟨⟨"COM1", 9600, .One, .NoneP, 1⟩, [⟨"r", .ReadSingle 1, "val"⟩], 0, 7, true⟩
    ⟨true, [9], false⟩ rfl rfl
  simpa [nextOp] using h

/-- C6: for a write whose transform compiled and whose address text
parsed, construction parses the value text with the multi-radix float
grammar, applies the transform, rounds to the nearest integer, and fails
with a `MathOperationResultInOutOfRangeValue` error naming the offending
value literal exactly when the rounded result lies outside `[0, 65535]`;
otherwise it returns the complete `Operation` carrying the parsed value
and the rounded raw wire value.  Failure never yields a partial
operation: the result is a single `Except` value. -/
theorem C6_write_range_validation (compile : String → Option (ℚ → ℚ))
    (ef : ℚ → ℚ) (view : OpView) (A : Nat) (V : ℚ)
    (hc : compile view.eval_str = some ef)
    (ht : view.op_type = .WriteSingle)
    (ha : parseNumStr 65535 view.op_addr = some A)
    (hv : parseNumFloat view.op_val = some V) :
    (operationTryFrom compile view =
        .error ⟨.MathOperationResultInOutOfRangeValue,
          view.op_val ++ " cannot be evaluated to a value in the range [0, 0xFFFF]"⟩
      ↔ (rustRound (ef V) < 0 ∨ rustRound (ef V) > 65535))
    ∧ (¬ (rustRound (ef V) < 0 ∨ rustRound (ef V) > 65535) →
        operationTryFrom compile view =
          .ok ⟨view.name, .WriteSingle A V (rustRound (ef V)).toNat, view.eval_str⟩) := by
  simp only [operationTryFrom, hc, ha, ht, hv]
  by_cases hcond : rustRound (ef V) < 0 ∨ rustRound (ef V) > 65535
  · rw [if_pos hcond]
    exact ⟨⟨fun _ => hcond, fun _ => rfl⟩, fun hn => absurd hcond hn⟩
  · rw [if_neg hcond]
    exact ⟨⟨fun h => absurd h (by simp), fun hc2 => absurd hc2 hcond⟩, fun _ => rfl⟩

/-- Witness for C6 with the identity transform `"val"`: value `"1000000"`
is rejected as out of range (naming the literal), value `"100"` succeeds
with raw wire value 100. -/
theorem C6_write_range_validation_witness :
    operationTryFrom specCompile ⟨"w", .WriteSingle, "1", "1000000", "val"⟩ =
      .error ⟨.MathOperationResultInOutOfRangeValue,
        "1000000 cannot be evaluated to a value in the range [0, 0xFFFF]"⟩
    ∧ operationTryFrom specCompile ⟨"w", .WriteSingle, "1", "100", "val"⟩ =
      .ok ⟨"w", .WriteSingle 1 100 100, "val"⟩ := by
  have hv1 : parseNumFloat "1000000" = some 1000000 := by
    have e1 : parseNumFloat "1000000" =
        some ((((((((0 : ℚ) * ((10 : Nat) : ℚ) + ((1 : Nat) : ℚ)) * ((10 : Nat) : ℚ)
          + ((0 : Nat) : ℚ)) * ((10 : Nat) : ℚ) + ((0 : Nat) : ℚ)) * ((10 : Nat) : ℚ)
          + ((0 : Nat) : ℚ)) * ((10 : Nat) : ℚ) + ((0 : Nat) : ℚ)) * ((10 : Nat) : ℚ)
          + ((0 : Nat) : ℚ)) * ((10 : Nat) : ℚ) + ((0 : Nat) : ℚ)) := rfl
    rw [e1]
    norm_num
  have hv2 : parseNumFloat "100" = some 100 := by
    have e1 : parseNumFloat "100" =
        some ((((0 : ℚ) * ((10 : Nat) : ℚ) + ((1 : Nat) : ℚ)) * ((10 : Nat) : ℚ)
          + ((0 : Nat) : ℚ)) * ((10 : Nat) : ℚ) + ((0 : Nat) : ℚ)) := rfl
    rw [e1]
    norm_num
  constructor
  · exact (C6_write_range_validation specCompile (fun x => x)
      ⟨"w", .WriteSingle, "1", "1000000", "val"⟩ 1 1000000
      rfl rfl (by decide) hv1).1.mpr (by norm_num [rustRound])
  · have h := (C6_write_range_validation specCompile (fun x => x)
      ⟨"w", .WriteSingle, "1", "100", "val"⟩ 1 100
      rfl rfl (by decide) hv2).2 (by norm_num [rustRound])
    have e : (rustRound ((fun x : ℚ => x) 100)).toNat = 100 := by
      norm_num [rustRound]
      decide
    rw [e] at h
    exact h

end ModbusTester
